import Mathlib

/-!
Verification of the rslogic µKanren-style logic-programming engine.

The development shallowly embeds the three layers of the library:
the persistent binary-tree map (`btmap.rs`), logical states and
unification (`state.rs`), and the goal algebra (`goal.rs`).
`Result<_, ()>` is embedded as `Except Unit`; a Rust `.unwrap()` on an
`Err` (a panic) is embedded by letting the enclosing operation return
`Option.none`.
-/

namespace Rslogic

/-- A node of the immutable binary-tree map: `Node<K, V>` in `btmap.rs`.
`nil` stands for an absent `Option<Rc<Node>>` child. -/
inductive Tree (K V : Type) where
  | nil : Tree K V
  | node (key : K) (val : V) (left right : Tree K V) : Tree K V
deriving DecidableEq

/-- `Node::get`: three-way comparison against the node key, descending
left on `Less` and right on `Greater`. -/
def Tree.get {K V : Type} [LinearOrder K] : Tree K V → K → Option V
  | .nil, _ => none
  | .node key val l r, k =>
      if k = key then some val
      else if k < key then l.get k
      else r.get k

/-- `BtMap<K, V>`: a size field and a root tree (`None` root = `nil`). -/
structure BtMap (K V : Type) where
  size : Nat
  root : Tree K V
deriving DecidableEq

/-- `BtMap::empty`. -/
def BtMap.empty {K V : Type} : BtMap K V := ⟨0, Tree.nil⟩

/-- `BtMap::get`. -/
def BtMap.get {K V : Type} [LinearOrder K] (m : BtMap K V) (k : K) : Option V :=
  m.root.get k

/-- `BtMap::contains_key`. -/
def BtMap.contains_key {K V : Type} [LinearOrder K] (m : BtMap K V) (k : K) : Bool :=
  (m.get k).isSome

/-- `BtMap::insert`: compares the new key with the root key only; on
`Equal` it errors, on `Less` the whole old tree becomes the right child
of a fresh root, on `Greater` it becomes the left child. -/
def BtMap.insert {K V : Type} [LinearOrder K] (m : BtMap K V) (k : K) (v : V) :
    Except Unit (BtMap K V) :=
  match m.root with
  | .nil => .ok ⟨1, .node k v .nil .nil⟩
  | .node rk rv l r =>
      if k = rk then .error ()
      else if k < rk then .ok ⟨m.size + 1, .node k v .nil (.node rk rv l r)⟩
      else .ok ⟨m.size + 1, .node k v (.node rk rv l r) .nil⟩

/-- `Var` from `state.rs`: an index wrapper. -/
structure Var where
  index : Nat
deriving DecidableEq

/-- `State<T>` from `state.rs`: `bindings : var index → slot`,
`slots : slot → value`, and the fresh-variable counter. -/
structure State (T : Type) where
  bindings : BtMap Nat Nat
  slots : BtMap Nat T
  next_index : Nat
deriving DecidableEq

/-- `State::empty`. -/
def State.empty {T : Type} : State T := ⟨BtMap.empty, BtMap.empty, 0⟩

/-- `State::binds_var`. -/
def State.binds_var {T : Type} (s : State T) (v : Var) : Bool :=
  match s.bindings.get v.index with
  | some slot => s.slots.contains_key slot
  | none => false

/-- `State::get`. -/
def State.get {T : Type} (s : State T) (v : Var) : Option T :=
  match s.bindings.get v.index with
  | some slot => s.slots.get slot
  | none => none

/-- `State::make_var`. -/
def State.make_var {T : Type} (s : State T) : Var × State T :=
  (⟨s.next_index⟩, { s with next_index := s.next_index + 1 })

/-- The `Unif` implementation produced by the `unif_prim!` macro for every
primitive type: unification is equality, returning `[prev]` on success. -/
def prim_unify {T : Type} [DecidableEq T] (a b : T) (prev : State T) : List (State T) :=
  if a = b then [prev] else []

/-- `State::unify_val`.  The `unif` argument is the `Unif::unify` method of
the value type.  `none` models a panic of one of the `.unwrap()` calls. -/
def State.unify_val {T : Type} (s : State T)
    (unif : T → T → State T → List (State T)) (v : Var) (val : T) :
    Option (List (State T)) :=
  match s.bindings.get v.index with
  | some slot =>
      match s.slots.get slot with
      | some existing => some (unif existing val s)
      | none =>
          match s.slots.insert slot val with
          | .ok sl => some [{ s with slots := sl }]
          | .error _ => none
  | none =>
      match s.bindings.insert v.index v.index, s.slots.insert v.index val with
      | .ok b, .ok sl => some [{ s with bindings := b, slots := sl }]
      | _, _ => none

/-- `State::unify_var`.  `none` models a panic of an `.unwrap()` call. -/
def State.unify_var {T : Type} (s : State T)
    (unif : T → T → State T → List (State T)) (v1 v2 : Var) :
    Option (List (State T)) :=
  match s.bindings.get v1.index with
  | some s1 =>
      match s.bindings.get v2.index with
      | some s2 =>
          match s.slots.get s1 with
          | some vv1 =>
              match s.slots.get s2 with
              | some vv2 => some (unif vv1 vv2 s)
              | none => some []
          | none =>
              match s.slots.get s2 with
              | some _ => some []
              | none => if s1 = s2 then some [s] else some []
      | none =>
          match s.bindings.insert v2.index s1 with
          | .ok b => some [{ s with bindings := b }]
          | .error _ => none
  | none =>
      match s.bindings.get v2.index with
      | some s2 =>
          match s.bindings.insert v1.index s2 with
          | .ok b => some [{ s with bindings := b }]
          | .error _ => none
      | none =>
          match (s.bindings.insert v1.index v1.index).bind
                  (fun b => b.insert v2.index v1.index) with
          | .ok b => some [{ s with bindings := b }]
          | .error _ => none

/-- The closed family of goals from `goal.rs`: `Fail`, `UnifyVal`,
`UnifyVar`, `Conjunction`, `Disjunction`, `Predicate`. -/
inductive Goal (T : Type) where
  | fail : Goal T
  | unifyVal (v : Var) (val : T) : Goal T
  | unifyVar (v1 v2 : Var) : Goal T
  | conj (a b : Goal T) : Goal T
  | disj (a b : Goal T) : Goal T
  | pred (f : State T → Bool) : Goal T

/-- The loop of `Disjunction::eval`: each iteration takes one state from
each stream (pushing `a`'s before `b`'s) until both are exhausted. -/
def interleave {α : Type} : List α → List α → List α
  | [], ys => ys
  | x :: xs, [] => x :: interleave xs []
  | x :: xs, y :: ys => x :: y :: interleave xs ys

mutual

/-- `Goal::eval` for each variant, as in `goal.rs`; `none` models a panic
propagating out of a sub-evaluation. -/
def Goal.eval {T : Type} (unif : T → T → State T → List (State T)) :
    Goal T → State T → Option (List (State T))
  | .fail, _ => some []
  | .unifyVal v val, s => s.unify_val unif v val
  | .unifyVar v1 v2, s => s.unify_var unif v1 v2
  | .conj a b, s =>
      match a.eval unif s with
      | none => none
      | some ra => evalconj unif b ra
  | .disj a b, s =>
      match a.eval unif s, b.eval unif s with
      | some ra, some rb => some (interleave ra rb)
      | _, _ => none
  | .pred f, s => some (if f s then [s] else [])

/-- The `for s in ra { result.append(b.eval(&s)) }` loop of
`Conjunction::eval`. -/
def evalconj {T : Type} (unif : T → T → State T → List (State T))
    (b : Goal T) : List (State T) → Option (List (State T))
  | [] => some []
  | s :: rest =>
      match b.eval unif s with
      | none => none
      | some rb =>
          match evalconj unif b rest with
          | none => none
          | some rrest => some (rb ++ rrest)

end

/-- The specification's description of disjunction: pairwise round-robin
`[a₀, b₀, a₁, b₁, …]` with any trailing tail of the longer stream
appended in its original order. -/
def specRoundRobin {α : Type} (l1 l2 : List α) : List α :=
  ((l1.zip l2).flatMap fun p => [p.1, p.2]) ++ l1.drop l2.length ++ l2.drop l1.length

theorem interleave_nil_right {α : Type} (l : List α) : interleave l [] = l := by
  induction l with
  | nil => rfl
  | cons x xs ih => simp [interleave, ih]

theorem interleave_eq_specRoundRobin {α : Type} :
    ∀ l1 l2 : List α, interleave l1 l2 = specRoundRobin l1 l2 := by
  intro l1
  induction l1 with
  | nil => intro l2; simp [interleave, specRoundRobin]
  | cons x xs ih =>
      intro l2
      cases l2 with
      | nil => simp [interleave_nil_right, specRoundRobin]
      | cons y ys => simp [interleave, specRoundRobin, ih ys]

/-- Claim C5: for all goals `a`, `b` and every state `s`, `disj(a, b).eval(&s)`
is the round-robin interleaving of `R_a = a.eval(&s)` and `R_b = b.eval(&s)`:
`[a₀, b₀, a₁, b₁, …]` with the trailing tail of the longer sequence appended
in its original order; in particular `disj(fail, g).eval(&s)` equals
`g.eval(&s)` exactly. -/
theorem disj_eval_interleaves {T : Type}
    (unif : T → T → State T → List (State T)) (a b : Goal T) (s : State T)
    (ra rb : List (State T))
    (ha : a.eval unif s = some ra) (hb : b.eval unif s = some rb) :
    (Goal.disj a b).eval unif s = some (specRoundRobin ra rb) ∧
      (Goal.disj Goal.fail b).eval unif s = b.eval unif s := by
  constructor
  · simp [Goal.eval, ha, hb, interleave_eq_specRoundRobin]
  · cases hbe : b.eval unif s with
    | none => simp [Goal.eval, hbe]
    | some rb2 => simp [Goal.eval, hbe, interleave]

def c5S0 : State Nat := ⟨⟨0, Tree.nil⟩, ⟨0, Tree.nil⟩, 1⟩

def c5st (n : Nat) : State Nat :=
  ⟨⟨1, .node 0 0 .nil .nil⟩, ⟨1, .node 0 n .nil .nil⟩, 1⟩

def c5A : Goal Nat := .disj (.unifyVal ⟨0⟩ 1) (.unifyVal ⟨0⟩ 2)

def c5B : Goal Nat :=
  .disj (.unifyVal ⟨0⟩ 3) (.disj (.unifyVal ⟨0⟩ 4) (.unifyVal ⟨0⟩ 5))

/-- Witness for claim C5 at goals producing two and three result states. -/
theorem disj_eval_interleaves_witness :
    (Goal.disj c5A c5B).eval prim_unify c5S0 =
      some (specRoundRobin [c5st 1, c5st 2] [c5st 3, c5st 4, c5st 5]) ∧
    (Goal.disj Goal.fail c5B).eval prim_unify c5S0 = c5B.eval prim_unify c5S0 :=
  disj_eval_interleaves prim_unify c5A c5B c5S0 _ _
    (by simp [c5A, Goal.eval]; decide) (by simp [c5B, Goal.eval]; decide)

/-- Claim C6: when both variables have slots in `bindings`, `unify_var`
returns the empty sequence if exactly one of the two slots has a value in
`slots`; if neither slot has a value it returns `[self]` when the slots are
equal and the empty sequence otherwise. -/
theorem unify_var_mixed_bound_cases {T : Type}
    (unif : T → T → State T → List (State T)) (s : State T) (v1 v2 : Var)
    (s1 s2 : Nat)
    (h1 : s.bindings.get v1.index = some s1)
    (h2 : s.bindings.get v2.index = some s2) :
    ((s.slots.get s1).isSome → s.slots.get s2 = none →
        s.unify_var unif v1 v2 = some []) ∧
    (s.slots.get s1 = none → (s.slots.get s2).isSome →
        s.unify_var unif v1 v2 = some []) ∧
    (s.slots.get s1 = none → s.slots.get s2 = none →
        s.unify_var unif v1 v2 = some (if s1 = s2 then [s] else [])) := by
  cases hg1 : s.slots.get s1 <;> cases hg2 : s.slots.get s2 <;>
    simp [State.unify_var, h1, h2, hg1, hg2] <;> split <;> simp

def c6S : State Nat :=
  ⟨⟨2, .node 1 1 (.node 0 0 .nil .nil) .nil⟩, ⟨1, .node 0 42 .nil .nil⟩, 2⟩

/-- Witness for claim C6: variable 0 is bound (slot 0 has value 42) and
variable 1 is aliased but unbound (slot 1 empty), so unification fails. -/
theorem unify_var_mixed_bound_cases_witness :
    c6S.unify_var prim_unify ⟨0⟩ ⟨1⟩ = some [] :=
  (unify_var_mixed_bound_cases prim_unify c6S ⟨0⟩ ⟨1⟩ 0 1 rfl rfl).1
    (by decide) rfl

/-- A successful `BtMap::insert` places the new key at the root, so looking
the inserted key up in the new map finds the inserted value. -/
theorem BtMap.insert_get_self {K V : Type} [LinearOrder K]
    {m m2 : BtMap K V} {k : K} {v : V} (h : m.insert k v = .ok m2) :
    m2.get k = some v := by
  unfold BtMap.insert at h
  cases hr : m.root with
  | nil =>
      rw [hr] at h
      cases h
      simp [BtMap.get, Tree.get]
  | node rk rv l r =>
      rw [hr] at h
      by_cases hk : k = rk
      · simp [hk] at h
      · by_cases hlt : k < rk <;> simp [hk, hlt] at h <;>
          { cases h; simp [BtMap.get, Tree.get] }

/-- Claim C8: for atomic value types (primitive `Unif` instances), if
`unify_val(&v, x)` succeeds yielding exactly `[S₁]`, then re-unifying `v`
with `x` in `S₁` yields exactly `[S₁]` again (whose `get(&v)` is
`some x`), while unifying `v` with any `y ≠ x` in `S₁` yields `[]`. -/
theorem prim_unify_val_idempotent {T : Type} [DecidableEq T]
    (S : State T) (v : Var) (x : T) (S1 : State T)
    (h : S.unify_val prim_unify v x = some [S1]) :
    S1.unify_val prim_unify v x = some [S1] ∧ S1.get v = some x ∧
      ∀ y, y ≠ x → S1.unify_val prim_unify v y = some [] := by
  cases hb : S.bindings.get v.index with
  | some slot =>
      cases hs : S.slots.get slot with
      | some existing =>
          have h2 : prim_unify existing x S = [S1] := by
            have := h
            simp only [State.unify_val, hb, hs] at this
            exact Option.some.inj this
          unfold prim_unify at h2
          by_cases hex : existing = x
          · subst hex
            have hS1 : S = S1 := by simpa using h2
            subst hS1
            refine ⟨?_, ?_, ?_⟩
            · simp [State.unify_val, hb, hs, prim_unify]
            · simp [State.get, hb, hs]
            · intro y hy
              simp [State.unify_val, hb, hs, prim_unify]
              exact fun hcon => absurd hcon.symm hy
          · simp [hex] at h2
      | none =>
          cases hins : S.slots.insert slot x with
          | error e => simp [State.unify_val, hb, hs, hins] at h
          | ok sl =>
              have hS1 : S1 = { S with slots := sl } := by
                have := h
                simp only [State.unify_val, hb, hs, hins] at this
                simpa using this.symm
              have hget : sl.get slot = some x := BtMap.insert_get_self hins
              subst hS1
              refine ⟨?_, ?_, ?_⟩
              · simp [State.unify_val, hb, hget, prim_unify]
              · simp [State.get, hb, hget]
              · intro y hy
                simp [State.unify_val, hb, hget, prim_unify]
                exact fun hcon => absurd hcon.symm hy
  | none =>
      cases hbi : S.bindings.insert v.index v.index with
      | error e => simp [State.unify_val, hb, hbi] at h
      | ok b2 =>
          cases hsi : S.slots.insert v.index x with
          | error e => simp [State.unify_val, hb, hbi, hsi] at h
          | ok sl =>
              have hS1 : S1 = { S with bindings := b2, slots := sl } := by
                have := h
                simp only [State.unify_val, hb, hbi, hsi] at this
                simpa using this.symm
              have hgb : b2.get v.index = some v.index := BtMap.insert_get_self hbi
              have hgs : sl.get v.index = some x := BtMap.insert_get_self hsi
              subst hS1
              refine ⟨?_, ?_, ?_⟩
              · simp [State.unify_val, hgb, hgs, prim_unify]
              · simp [State.get, hgb, hgs]
              · intro y hy
                simp [State.unify_val, hgb, hgs, prim_unify]
                exact fun hcon => absurd hcon.symm hy

def c8S1 : State Nat :=
  ⟨⟨1, .node 0 0 .nil .nil⟩, ⟨1, .node 0 5 .nil .nil⟩, 0⟩

/-- Witness for claim C8: unifying variable 0 with 5 in the empty state
yields `c8S1`; re-unifying with 5 is stable and unifying with 6 fails. -/
theorem prim_unify_val_idempotent_witness :
    c8S1.unify_val prim_unify ⟨0⟩ 5 = some [c8S1] ∧
      c8S1.get ⟨0⟩ = some 5 ∧
      c8S1.unify_val prim_unify ⟨0⟩ 6 = some [] :=
  ⟨(prim_unify_val_idempotent State.empty ⟨0⟩ 5 c8S1 rfl).1,
   (prim_unify_val_idempotent State.empty ⟨0⟩ 5 c8S1 rfl).2.1,
   (prim_unify_val_idempotent State.empty ⟨0⟩ 5 c8S1 rfl).2.2 6 (by decide)⟩

/-- Claim C1 (code bug): inserting the pairwise distinct keys 1, 3, 2 in
that order makes key 1 unreachable — `get(&1)` returns `None` although the
insert chain succeeded, because `insert` compares the new key only with the
root and moves the whole old tree to one side. -/
theorem btmap_insert_loses_key :
    (((BtMap.empty (K := Nat) (V := Nat)).insert 1 10).bind fun m =>
        ((m.insert 3 30).bind fun m =>
          ((m.insert 2 20).map fun m => (m.get 1, m.get 2, m.get 3)))) =
      .ok (none, some 20, some 30) := rfl

/-- Claim C4 (code bug): after inserting keys 1 and 2, the map contains
key 1, yet `insert(1, _)` succeeds instead of failing with
`AlreadyPresent`, because `insert` only compares the new key against the
root key. -/
theorem btmap_insert_duplicate_accepted :
    (((BtMap.empty (K := Nat) (V := Nat)).insert 1 10).bind fun m =>
        (m.insert 2 20).map fun m =>
          (m.contains_key 1, (m.insert 1 99).toOption.isSome)) =
      .ok (true, true) := rfl

/-- Claim C3 (code bug): `unify_var(&v, &v)` on a fresh in-contract
variable panics — the both-absent branch inserts `bindings[v.index]`
twice, and the second `insert` returns `Err`, so the `.unwrap()` panics
(modelled as `none`). -/
theorem unify_var_self_panics :
    (State.empty (T := Nat)).make_var.2.unify_var prim_unify ⟨0⟩ ⟨0⟩ = none := by
  decide

def c2A : State Nat := ⟨⟨1, .node 0 0 .nil .nil⟩, ⟨1, .node 0 10 .nil .nil⟩, 3⟩

def c2B : State Nat :=
  ⟨⟨2, .node 2 2 (.node 0 0 .nil .nil) .nil⟩,
   ⟨2, .node 2 30 (.node 0 10 .nil .nil) .nil⟩, 3⟩

def c2C : State Nat :=
  ⟨⟨3, .node 1 1 .nil (.node 2 2 (.node 0 0 .nil .nil) .nil)⟩,
   ⟨3, .node 1 20 .nil (.node 2 30 (.node 0 10 .nil .nil) .nil)⟩, 3⟩

/-- Claim C2 (code bug): in the reachable state `c2B` (variables 0 and 2
bound), variable 1 is unaliased, and `unify_val(&v1, 20)` returns one new
state — but that state does not differ from `c2B` only by the new entries:
the lookup of variable 0 changes from `some 10` to `none`, because the
`bindings` insert of key 1 shadows key 0 in the broken tree. -/
theorem unify_val_breaks_frame :
    (State.empty.make_var.2.make_var.2.make_var.2.unify_val prim_unify ⟨0⟩ 10 =
        some [c2A]) ∧
      c2A.unify_val prim_unify ⟨2⟩ 30 = some [c2B] ∧
      c2B.bindings.get 1 = none ∧
      c2B.get ⟨0⟩ = some 10 ∧
      c2B.unify_val prim_unify ⟨1⟩ 20 = some [c2C] ∧
      c2C.get ⟨0⟩ = none := by decide

def c7Sa : State Nat := ⟨⟨2, .node 0 3 .nil (.node 3 3 .nil .nil)⟩, ⟨0, .nil⟩, 4⟩

def c7Sb : State Nat :=
  ⟨⟨3, .node 2 2 (.node 0 3 .nil (.node 3 3 .nil .nil)) .nil⟩,
   ⟨1, .node 2 9 .nil .nil⟩, 4⟩

def c7Sc : State Nat :=
  ⟨⟨4, .node 1 3 .nil (.node 2 2 (.node 0 3 .nil (.node 3 3 .nil .nil)) .nil)⟩,
   ⟨1, .node 2 9 .nil .nil⟩, 4⟩

def c7Sd : State Nat :=
  ⟨⟨5, .node 0 0 .nil
      (.node 1 3 .nil (.node 2 2 (.node 0 3 .nil (.node 3 3 .nil .nil)) .nil))⟩,
   ⟨2, .node 0 7 .nil (.node 2 9 .nil .nil)⟩, 4⟩

/-- Claim C7 (code bug): starting from the empty state with four variables,
`unify_var(&v3, &v0)`, `unify_val(&v2, 9)`, `unify_var(&v0, &v1)` and
`unify_val(&v0, 7)` each succeed with a single state, yet in the final
state `get(&v1)` is `none` rather than `some 7`: the `bindings` insert for
variable 1 shadowed variable 0's entry, so binding `v0` created a fresh
slot instead of the shared one. -/
theorem aliasing_transitivity_fails :
    (State.empty.make_var.2.make_var.2.make_var.2.make_var.2.unify_var
        prim_unify ⟨3⟩ ⟨0⟩ = some [c7Sa]) ∧
      c7Sa.unify_val prim_unify ⟨2⟩ 9 = some [c7Sb] ∧
      c7Sb.unify_var prim_unify ⟨0⟩ ⟨1⟩ = some [c7Sc] ∧
      c7Sc.unify_val prim_unify ⟨0⟩ 7 = some [c7Sd] ∧
      c7Sd.get ⟨1⟩ = none := by decide

def c10Sa : State Nat := ⟨⟨1, .node 2 2 .nil .nil⟩, ⟨1, .node 2 30 .nil .nil⟩, 3⟩

def c10Sb : State Nat :=
  ⟨⟨3, .node 1 0 (.node 0 0 .nil (.node 2 2 .nil .nil)) .nil⟩,
   ⟨1, .node 2 30 .nil .nil⟩, 3⟩

/-- Claim C10 (code bug): in the reachable state `c10Sb` (obtained by
`unify_val(&v2, 30)` then `unify_var(&v0, &v1)`), slot id 2 occurs as a key
in `slots` (`slots.get 2 = some 30`), but its own `bindings` entry is gone:
`bindings.get 2 = none` instead of `some 2`, because the inserts for
variables 0 and 1 shadowed key 2 in the broken tree. -/
theorem slot_invariant_violated :
    (State.empty.make_var.2.make_var.2.make_var.2.unify_val prim_unify ⟨2⟩ 30 =
        some [c10Sa]) ∧
      c10Sa.unify_var prim_unify ⟨0⟩ ⟨1⟩ = some [c10Sb] ∧
      c10Sb.slots.get 2 = some 30 ∧
      c10Sb.bindings.get 1 = some 0 ∧
      c10Sb.bindings.get 2 = none := by decide

end Rslogic
